import Mathlib

/-!
# Address-to-symbol resolution (`ClientData/ModuleAndFunctionLookup.cpp`)

A shallow embedding of the lookup functions of `orbit_client_data` and of the
collaborators they call.  Machine integers (`uint64_t`) are natural numbers,
with the wrap-around of unsigned 64-bit arithmetic written out.  A pointer
result (`const T*`, `nullptr` when absent) and a `std::optional` are both an
`Option`.
-/

namespace orbit_client_data

/-! ## Unsigned 64-bit arithmetic -/

/-- Number of values of a `uint64_t`. -/
def kUint64Modulus : Nat := 2 ^ 64

/-- Wrapping `uint64_t` addition. -/
def add64 (a b : Nat) : Nat := (a + b) % kUint64Modulus

/-- Wrapping `uint64_t` subtraction. -/
def sub64 (a b : Nat) : Nat := (a + (kUint64Modulus - b % kUint64Modulus)) % kUint64Modulus

/-! ## Data model -/

/-- The proto message `orbit_client_protos::FunctionInfo`, with the fields the lookups read. -/
structure FunctionInfo where
  name : String
  pretty_name : String
  module_path : String
  module_build_id : String
  address : Nat
  size : Nat
deriving DecidableEq, Repr

/-- The proto message `orbit_client_protos::LinuxAddressInfo`: what was recorded for one
address while capturing. -/
structure LinuxAddressInfo where
  absolute_address : Nat
  offset_in_function : Nat
  module_path : String
  function_name : String
deriving DecidableEq, Repr

/-- `ModuleInMemory`: one mapping of a module in the address space of the process
(`end_` is the accessor `end()`). -/
structure ModuleInMemory where
  start : Nat
  end_ : Nat
  file_path : String
  build_id : String
deriving DecidableEq, Repr

/-- `ModuleData`: static data of a module and its table of functions. -/
structure ModuleData where
  file_path : String
  build_id : String
  load_bias : Nat
  executable_segment_offset : Nat
  functions : List FunctionInfo
deriving DecidableEq, Repr

/-- `ProcessData`: the mappings of the traced process. -/
structure ProcessData where
  mappings : List ModuleInMemory
deriving DecidableEq, Repr

/-- `ModuleManager`: the catalog of modules.  Its two queries are declared outside
`ModuleAndFunctionLookup.cpp`; they are taken as they are given. -/
structure ModuleManager where
  GetModuleByModuleInMemoryAndAbsoluteAddress : ModuleInMemory → Nat → Option ModuleData
  GetModuleByPathAndBuildId : String → String → Option ModuleData

/-- An entry of `CaptureData::instrumented_functions()`. -/
structure InstrumentedFunction where
  file_path : String
  file_offset : Nat
deriving DecidableEq, Repr

/-- `CaptureData`: the process of the capture, the address infos recorded while capturing
(`GetAddressInfo`, a query declared outside this file and taken as given) and the
instrumented functions keyed by id. -/
structure CaptureData where
  process : ProcessData
  GetAddressInfo : Nat → Option LinuxAddressInfo
  instrumented_functions : List (Nat × InstrumentedFunction)

/-- The constant `kUnknownFunctionOrModuleName` of `ModuleAndFunctionLookup.h`. -/
def kUnknownFunctionOrModuleName : String := "???"

/-! ## Collaborators modelled from the specification -/

/-- True when the mapping contains the address: `start ≤ address < end`. -/
def ModuleInMemory.contains (m : ModuleInMemory) (absolute_address : Nat) : Bool :=
  decide (m.start ≤ absolute_address) && decide (absolute_address < m.end_)

/-- Modelled from the spec: `ProcessData::FindModuleByAddress` is not among the sources.
The specification has it map an absolute address to the in-memory mapping that contains
it, or report "not found"; with several candidates the first in the list is taken. -/
def ProcessData.FindModuleByAddress (process : ProcessData) (absolute_address : Nat) :
    Option ModuleInMemory :=
  process.mappings.find? (fun m => m.contains absolute_address)

/-- Modelled from the spec: `orbit_object_utils::SymbolAbsoluteAddressToOffset` is not among
the sources.  The specification gives
`file_offset = absolute_address - mapping.start + module.executable_segment_offset`. -/
def SymbolAbsoluteAddressToOffset (absolute_address module_base_address
    module_executable_segment_offset : Nat) : Nat :=
  add64 (sub64 absolute_address module_base_address) module_executable_segment_offset

/-- Modelled from the spec: `orbit_object_utils::SymbolVirtualAddressToAbsoluteAddress` is not
among the sources.  The specification gives `absolute_function_addr =
function.virtual_addr - module.load_bias - module.executable_segment_offset + mapping.start`. -/
def SymbolVirtualAddressToAbsoluteAddress (symbol_address module_base_address module_load_bias
    module_executable_segment_offset : Nat) : Nat :=
  add64 (sub64 (sub64 symbol_address module_load_bias) module_executable_segment_offset)
    module_base_address

/-- True when the recorded extent `[address, address + size)` of the function contains the
address. -/
def FunctionInfo.covers (f : FunctionInfo) (elf_address : Nat) : Bool :=
  decide (f.address ≤ elf_address) && decide (elf_address < f.address + f.size)

/-- Floor search: the function whose start is the greatest one at or before the address;
among functions with that same start, the first in table order. -/
def floorLookup : List FunctionInfo → Nat → Option FunctionInfo
  | [], _ => none
  | f :: rest, elf_address =>
    match floorLookup rest elf_address with
    | some g =>
      if f.address ≤ elf_address ∧ g.address ≤ f.address then some f else some g
    | none => if f.address ≤ elf_address then some f else none

/-- Modelled from the spec: `ModuleData::FindFunctionByElfAddress` is not among the sources.
With `is_exact` the specification asks for interval membership in a function's recorded
extent (first match in table order); without it, for the floor search. -/
def ModuleData.FindFunctionByElfAddress (module : ModuleData) (elf_address : Nat)
    ( is_exact : Bool) : Option FunctionInfo :=
  if is_exact then module.functions.find? (fun f => f.covers elf_address)
  else floorLookup module.functions elf_address

/-- Modelled from the spec: `ModuleData::FindFunctionByOffset` is not among the sources.
The specification normalises a file offset and a function's virtual address to one space
by `virtual_address = module.load_bias + file_offset`. -/
def ModuleData.FindFunctionByOffset (module : ModuleData) (offset : Nat) ( is_exact : Bool) :
    Option FunctionInfo :=
  module.FindFunctionByElfAddress (add64 module.load_bias offset) is_exact

/-! ## The functions of `ModuleAndFunctionLookup.cpp` -/

/-- `FindFunctionAbsoluteAddressByInstructionAbsoluteAddressUsingModulesInMemory`. -/
def FindFunctionAbsoluteAddressByInstructionAbsoluteAddressUsingModulesInMemory
    (process : ProcessData) (module_manager : ModuleManager) (absolute_address : Nat) :
    Option Nat :=
  match process.FindModuleByAddress absolute_address with
  | none => none
  | some module_in_memory =>
    let module_base_address := module_in_memory.start
    match module_manager.GetModuleByModuleInMemoryAndAbsoluteAddress module_in_memory
        absolute_address with
    | none => none
    | some module =>
      let offset := SymbolAbsoluteAddressToOffset absolute_address module_base_address
        module.executable_segment_offset
      match module.FindFunctionByOffset offset false with
      | none => none
      | some function_info =>
        some (SymbolVirtualAddressToAbsoluteAddress function_info.address module_base_address
          module.load_bias module.executable_segment_offset)

/-- `FindFunctionAbsoluteAddressByInstructionAbsoluteAddressUsingAddressInfo`. -/
def FindFunctionAbsoluteAddressByInstructionAbsoluteAddressUsingAddressInfo
    (capture_data : CaptureData) (absolute_address : Nat) : Option Nat :=
  match capture_data.GetAddressInfo absolute_address with
  | none => none
  | some address_info => some (sub64 absolute_address address_info.offset_in_function)

/-- `FindFunctionByAddress`. -/
def FindFunctionByAddress (process : ProcessData) (module_manager : ModuleManager)
    (absolute_address : Nat) ( is_exact : Bool) : Option FunctionInfo :=
  match process.FindModuleByAddress absolute_address with
  | none => none
  | some module_in_memory =>
    let module_base_address := module_in_memory.start
    match module_manager.GetModuleByModuleInMemoryAndAbsoluteAddress module_in_memory
        absolute_address with
    | none => none
    | some module =>
      let offset := SymbolAbsoluteAddressToOffset absolute_address module_base_address
        module.executable_segment_offset
      module.FindFunctionByOffset offset is_exact

/-- `FindModuleByAddress`. -/
def FindModuleByAddress (process : ProcessData) (module_manager : ModuleManager)
    (absolute_address : Nat) : Option ModuleData :=
  match process.FindModuleByAddress absolute_address with
  | none => none
  | some result =>
    module_manager.GetModuleByModuleInMemoryAndAbsoluteAddress result absolute_address

/-- `GetFunctionNameByAddress`.  The formatting function
`function_utils::GetDisplayName` is declared outside this file and is an argument. -/
def GetFunctionNameByAddress (GetDisplayName : FunctionInfo → String)
    (module_manager : ModuleManager) (capture_data : CaptureData) (absolute_address : Nat) :
    String :=
  match FindFunctionByAddress capture_data.process module_manager absolute_address false with
  | some function => GetDisplayName function
  | none =>
    match capture_data.GetAddressInfo absolute_address with
    | none => kUnknownFunctionOrModuleName
    | some address_info =>
      let function_name := address_info.function_name
      if function_name.isEmpty then kUnknownFunctionOrModuleName else function_name

/-- `FindFunctionAbsoluteAddressByInstructionAbsoluteAddress`. -/
def FindFunctionAbsoluteAddressByInstructionAbsoluteAddress (module_manager : ModuleManager)
    (capture_data : CaptureData) (absolute_address : Nat) : Option Nat :=
  match FindFunctionAbsoluteAddressByInstructionAbsoluteAddressUsingModulesInMemory
      capture_data.process module_manager absolute_address with
  | some result => some result
  | none =>
    FindFunctionAbsoluteAddressByInstructionAbsoluteAddressUsingAddressInfo capture_data
      absolute_address

/-- `GetModulePathByAddress`. -/
def GetModulePathByAddress (module_manager : ModuleManager) (capture_data : CaptureData)
    (absolute_address : Nat) : String :=
  match FindModuleByAddress capture_data.process module_manager absolute_address with
  | some module_data => module_data.file_path
  | none =>
    match capture_data.GetAddressInfo absolute_address with
    | none => kUnknownFunctionOrModuleName
    | some address_info =>
      let module_path := address_info.module_path
      if module_path.isEmpty then kUnknownFunctionOrModuleName else module_path

/-- `FindFunctionByModulePathBuildIdAndOffset`. -/
def FindFunctionByModulePathBuildIdAndOffset (module_manager : ModuleManager)
    (module_path build_id : String) (offset : Nat) : Option FunctionInfo :=
  match module_manager.GetModuleByPathAndBuildId module_path build_id with
  | none => none
  | some module_data =>
    let address := add64 module_data.load_bias offset
    module_data.FindFunctionByElfAddress address true

/-- `FindModuleBuildIdByAddress`. -/
def FindModuleBuildIdByAddress (process : ProcessData) (module_manager : ModuleManager)
    (absolute_address : Nat) : Option String :=
  match FindModuleByAddress process module_manager absolute_address with
  | none => none
  | some module_data => some module_data.build_id

/-- Modelled from the spec: `orbit_client_data::function_utils::Offset` is not among the
sources.  The specification relates a function's virtual address and its file offset by
`virtual_address = module.load_bias + file_offset`, so the file offset is
`virtual_address - load_bias`. -/
def function_utils.Offset (function : FunctionInfo) (module : ModuleData) : Nat :=
  sub64 function.address module.load_bias

/-- How a run of `FindInstrumentedFunctionIdSlow` ends: with the `std::optional` it returns,
or in the evaluation of `*module` while `module` is `nullptr`. -/
inductive Outcome where
  | returned (id : Option Nat)
  | nullModuleDereference
deriving DecidableEq, Repr

/-- The loop of `FindInstrumentedFunctionIdSlow` over the instrumented functions, in
iteration order.  `module` is the pointer obtained before the loop; the right operand of
`&&` dereferences it and is evaluated only when the file paths are equal. -/
def scanInstrumentedFunctions (module : Option ModuleData) (function : FunctionInfo) :
    List (Nat × InstrumentedFunction) → Outcome
  | [] => .returned none
  | it :: rest =>
    let target_function := it.2
    if target_function.file_path = function.module_path then
      match module with
      | none => .nullModuleDereference
      | some module_data =>
        if target_function.file_offset = function_utils.Offset function module_data then
          .returned (some it.1)
        else scanInstrumentedFunctions module function rest
    else scanInstrumentedFunctions module function rest

/-- `FindInstrumentedFunctionIdSlow`. -/
def FindInstrumentedFunctionIdSlow (module_manager : ModuleManager)
    (capture_data : CaptureData) (function : FunctionInfo) : Outcome :=
  let module :=
    module_manager.GetModuleByPathAndBuildId function.module_path function.module_build_id
  scanInstrumentedFunctions module function capture_data.instrumented_functions

/-! ## Data-model invariants -/

/-- Data-model invariant of a function table: sorted by start address, starts unique, and
recorded extents not overlapping. -/
def FunctionTableInvariant (functions : List FunctionInfo) : Prop :=
  functions.Pairwise (fun f g => f.address < g.address ∧ f.address + f.size ≤ g.address)

instance (functions : List FunctionInfo) : Decidable (FunctionTableInvariant functions) := by
  unfold FunctionTableInvariant
  infer_instance

/-- Data-model invariant of the mappings of a process: `start < end` for each, and no two
of them overlap. -/
def MappingsInvariant (mappings : List ModuleInMemory) : Prop :=
  (∀ m ∈ mappings, m.start < m.end_) ∧
    mappings.Pairwise (fun m n => m.end_ ≤ n.start ∨ n.end_ ≤ m.start)

instance (mappings : List ModuleInMemory) : Decidable (MappingsInvariant mappings) := by
  unfold MappingsInvariant
  infer_instance

/-- No record of the table reaches past the start of a record that starts later.  The order
of the records in the table does not matter. -/
def ExtentsDoNotOverlap (functions : List FunctionInfo) : Prop :=
  ∀ g ∈ functions, ∀ h ∈ functions, g.address < h.address → g.address + g.size ≤ h.address

instance (functions : List FunctionInfo) : Decidable (ExtentsDoNotOverlap functions) := by
  unfold ExtentsDoNotOverlap
  infer_instance

/-- No two records of the table share a start address. -/
def StartsAreUnique (functions : List FunctionInfo) : Prop :=
  ∀ g ∈ functions, ∀ h ∈ functions, g.address = h.address → g = h

instance (functions : List FunctionInfo) : Decidable (StartsAreUnique functions) := by
  unfold StartsAreUnique
  infer_instance

/-! ## Scenarios used as concrete inputs -/

/-- The function `Foo::Bar` of the `libfoo.so` scenario, with a chosen recorded size. -/
def fooBar (size : Nat) : FunctionInfo :=
  { name := "Foo::Bar", pretty_name := "Foo::Bar", module_path := "libfoo.so",
    module_build_id := "abc", address := 0x2050, size := size }

/-- A second function of `libfoo.so`, `Foo::Baz` at virtual address `0x3000`. -/
def fooBaz : FunctionInfo :=
  { name := "Foo::Baz", pretty_name := "Foo::Baz", module_path := "libfoo.so",
    module_build_id := "abc", address := 0x3000, size := 0x20 }

/-- The module `libfoo.so` with the given function table. -/
def libfoo (functions : List FunctionInfo) : ModuleData :=
  { file_path := "libfoo.so", build_id := "abc", load_bias := 0x1000,
    executable_segment_offset := 0, functions := functions }

/-- The mapping of `libfoo.so` at runtime base `0x7f0000000000`. -/
def libfooMapping : ModuleInMemory :=
  { start := 0x7f0000000000, end_ := 0x7f0000010000, file_path := "libfoo.so",
    build_id := "abc" }

/-- A process with `libfoo.so` as its only mapping. -/
def libfooProcess : ProcessData := { mappings := [libfooMapping] }

/-- A function of `libfoo.so` whose recorded extent `[0x2000, 0x3000)` overlaps `Foo::Bar`. -/
def fooWide : FunctionInfo :=
  { name := "Foo::Wide", pretty_name := "Foo::Wide", module_path := "libfoo.so",
    module_build_id := "abc", address := 0x2000, size := 0x1000 }

/-- A record of `libfoo.so` with the start address of `Foo::Bar` and recorded size zero. -/
def fooAlias : FunctionInfo :=
  { name := "Foo::Alias", pretty_name := "Foo::Alias", module_path := "libfoo.so",
    module_build_id := "abc", address := 0x2050, size := 0 }

/-- The module `libfoo.so` with the overlapping table `Foo::Wide`, `Foo::Bar`, `Foo::Baz`:
its starts are unique, but `Foo::Wide` reaches past the start of `Foo::Bar`. -/
def libfooOverlapping : ModuleData := libfoo [fooWide, fooBar 0x40, fooBaz]

/-- The module `libfoo.so` with the table `Foo::Alias`, `Foo::Bar`, `Foo::Baz`: no extent
reaches past a later start, but `Foo::Alias` and `Foo::Bar` share a start. -/
def libfooAliased : ModuleData := libfoo [fooAlias, fooBar 0x40, fooBaz]

/-- A catalog that knows exactly the given module, under its path and build id. -/
def catalogOf (module : ModuleData) : ModuleManager :=
  { GetModuleByModuleInMemoryAndAbsoluteAddress := fun m _ =>
      if m.file_path = module.file_path ∧ m.build_id = module.build_id then some module
      else none
    GetModuleByPathAndBuildId := fun path build_id =>
      if path = module.file_path ∧ build_id = module.build_id then some module else none }

/-- A module whose only function starts before its executable segment. -/
def earlyFunction : FunctionInfo :=
  { name := "early", pretty_name := "early", module_path := "libearly.so",
    module_build_id := "e1", address := 0x500, size := 0x1000 }

/-- The module of `earlyFunction`: load bias 0, executable segment at file offset `0x1000`. -/
def libearly : ModuleData :=
  { file_path := "libearly.so", build_id := "e1", load_bias := 0,
    executable_segment_offset := 0x1000, functions := [earlyFunction] }

/-- A process with `libearly.so` mapped at `[0x1000, 0x2000)`. -/
def libearlyProcess : ProcessData :=
  { mappings := [{ start := 0x1000, end_ := 0x2000, file_path := "libearly.so",
                   build_id := "e1" }] }

end orbit_client_data

/-!
# Relay of graphics events (`WindowsTracing/GraphicsEtwProvider.cpp`)
-/

namespace orbit_windows_tracing

/-- The fields of an `EVENT_RECORD` that matter here: `EventHeader.ProcessId`, read by
`Provider::OnEvent`, and `EventHeader.EventDescriptor.Id`, which tells records apart. -/
structure EVENT_RECORD where
  ProcessId : Nat
  Id : Nat
deriving DecidableEq, Repr

/-- The state of a `GraphicsEtwProvider::Provider` that `OnEvent` reads and writes.  The
calls of `callback_` are recorded in `callback_calls`, oldest first, each with the record
passed to it. -/
structure Provider where
  target_pid_ : Nat
  num_events_received_ : Nat
  num_events_processed_ : Nat
  callback_calls : List EVENT_RECORD
deriving DecidableEq, Repr

/-- `GraphicsEtwProvider::Provider::OnEvent`.  The two counters are declared in
`GraphicsEtwProvider.h`; they are unsigned, and `counter_modulus` is the number of values of
their type, at which `++` wraps. -/
def Provider.OnEvent (counter_modulus : Nat) (provider : Provider) (record : EVENT_RECORD) :
    Provider :=
  let received : Provider :=
    { provider with
      num_events_received_ := (provider.num_events_received_ + 1) % counter_modulus }
  if record.ProcessId = received.target_pid_ then
    { received with
      num_events_processed_ := (received.num_events_processed_ + 1) % counter_modulus
      callback_calls := received.callback_calls ++ [record] }
  else received

/-- The provider after a sequence of events has been delivered to `OnEvent`, in order. -/
def Provider.deliver (counter_modulus : Nat) (provider : Provider)
    (events : List EVENT_RECORD) : Provider :=
  events.foldl (Provider.OnEvent counter_modulus) provider

/-- The events of a sequence that come from the target process of the provider. -/
def Provider.ownEvents (provider : Provider) (events : List EVENT_RECORD) :
    List EVENT_RECORD :=
  events.filter (fun record => decide (record.ProcessId = provider.target_pid_))

/-- The provider GUIDs the constructor of `GraphicsEtwProvider` passes to `EnableProvider`. -/
inductive ProviderGuid where
  | Microsoft_Windows_DXGI
  | Microsoft_Windows_D3D9
  | Microsoft_Windows_Dwm_Core
  | Microsoft_Windows_DxgKrnl
  | Microsoft_Windows_DxgKrnl_Win7_PRESENTHISTORY
  | NT_Process
  | Microsoft_Windows_EventMetadata
  | Microsoft_Windows_Win32k
deriving DecidableEq, Repr

/-- The member functions of `GraphicsEtwProvider` that the constructor binds as callbacks. -/
inductive EventCallback where
  | OnDXGIEvent
  | OnD3d9Event
  | OnDwmCoreEvent
  | OnDwmCoreWin7Event
  | OnDxgKrnlEvent
  | OnDxgKrnlWin7PresEvent
  | OnNtProcessEvent
  | OnWindowsEventMetadata
  | OnWin32KEvent
deriving DecidableEq, Repr

/-- What the constructor of `GraphicsEtwProvider::Provider` stores from its arguments:
`name_`, the GUID of `krabs_provider_`, `target_pid_` and `callback_`. -/
structure RegisteredProvider where
  name_ : String
  guid : ProviderGuid
  target_pid_ : Nat
  callback_ : EventCallback
deriving DecidableEq, Repr

/-- The state of a `GraphicsEtwProvider` that `EnableProvider` reads and writes.  The map
`name_to_provider_` is a list of entries keyed by name, in order of insertion. -/
structure GraphicsEtwProvider where
  target_pid_ : Nat
  name_to_provider_ : List (String × RegisteredProvider)
deriving DecidableEq, Repr

/-- The map query `name_to_provider_.contains(name)`. -/
def GraphicsEtwProvider.contains (self : GraphicsEtwProvider) (name : String) : Bool :=
  self.name_to_provider_.any (fun entry => decide (entry.1 = name))

/-- The map assignment `name_to_provider_[name] = provider`: the value of an existing key is
replaced, a new key is inserted. -/
def GraphicsEtwProvider.assign (self : GraphicsEtwProvider) (name : String)
    (provider : RegisteredProvider) : GraphicsEtwProvider :=
  if self.contains name then
    { self with
      name_to_provider_ := self.name_to_provider_.map (fun entry =>
        if entry.1 = name then (name, provider) else entry) }
  else { self with name_to_provider_ := self.name_to_provider_ ++ [(name, provider)] }

/-- `GraphicsEtwProvider::EnableProvider`.  The result is `none` when `ORBIT_CHECK` fails,
which ends the program. -/
def GraphicsEtwProvider.EnableProvider (self : GraphicsEtwProvider) (name : String)
    (guid : ProviderGuid) (callback : EventCallback) : Option GraphicsEtwProvider :=
  if self.contains name then none
  else some (self.assign name ⟨name, guid, self.target_pid_, callback⟩)

/-- The constructor `GraphicsEtwProvider::GraphicsEtwProvider`: `target_pid_` is set, the map
starts empty, and the nine calls of `EnableProvider` follow in source order. -/
def GraphicsEtwProvider.construct (pid : Nat) : Option GraphicsEtwProvider := do
  let self : GraphicsEtwProvider := { target_pid_ := pid, name_to_provider_ := [] }
  let self ← self.EnableProvider "Dxgi" .Microsoft_Windows_DXGI .OnDXGIEvent
  let self ← self.EnableProvider "D3d9" .Microsoft_Windows_D3D9 .OnD3d9Event
  let self ← self.EnableProvider "DwmCore" .Microsoft_Windows_Dwm_Core .OnDwmCoreEvent
  let self ← self.EnableProvider "DwmCoreWin7" .Microsoft_Windows_Dwm_Core .OnDwmCoreWin7Event
  let self ← self.EnableProvider "DxgKrnl" .Microsoft_Windows_DxgKrnl .OnDxgKrnlEvent
  let self ← self.EnableProvider "DxgKrnlWin7Pres"
    .Microsoft_Windows_DxgKrnl_Win7_PRESENTHISTORY .OnDxgKrnlWin7PresEvent
  let self ← self.EnableProvider "NtProcess" .NT_Process .OnNtProcessEvent
  let self ← self.EnableProvider "WindowsEventMetadata" .Microsoft_Windows_EventMetadata
    .OnWindowsEventMetadata
  self.EnableProvider "Win32K" .Microsoft_Windows_Win32k .OnWin32KEvent

/-- The names the constructor registers, in source order. -/
def kRegisteredNames : List String :=
  ["Dxgi", "D3d9", "DwmCore", "DwmCoreWin7", "DxgKrnl", "DxgKrnlWin7Pres", "NtProcess",
    "WindowsEventMetadata", "Win32K"]

end orbit_windows_tracing

namespace orbit_client_data

/-! ## Arithmetic of the address translations -/

theorem SymbolAbsoluteAddressToOffset_int (a b e : Nat) :
    ((SymbolAbsoluteAddressToOffset a b e : Nat) : Int) = ((a : Int) - b + e) % 2 ^ 64 := by
  unfold SymbolAbsoluteAddressToOffset add64 sub64 kUint64Modulus
  omega

theorem SymbolVirtualAddressToAbsoluteAddress_int (v b l e : Nat) :
    ((SymbolVirtualAddressToAbsoluteAddress v b l e : Nat) : Int) =
      ((v : Int) - l - e + b) % 2 ^ 64 := by
  unfold SymbolVirtualAddressToAbsoluteAddress add64 sub64 kUint64Modulus
  omega

theorem roundtrip_arith (v b l e : Nat) (hv : v < 2 ^ 64) :
    add64 l (SymbolAbsoluteAddressToOffset (SymbolVirtualAddressToAbsoluteAddress v b l e) b e) = v := by
  unfold SymbolAbsoluteAddressToOffset SymbolVirtualAddressToAbsoluteAddress add64 sub64 kUint64Modulus
  omega

/-! ## Lookups in a function table -/

theorem pairwise_mem_cases {α : Type} {R : α → α → Prop} {l : List α} (h : l.Pairwise R)
    {a b : α} (ha : a ∈ l) (hb : b ∈ l) : a = b ∨ R a b ∨ R b a := by
  induction l with
  | nil => cases ha
  | cons x xs ih =>
    rw [List.pairwise_cons] at h
    rcases List.mem_cons.mp ha with rfl | ha'
    · rcases List.mem_cons.mp hb with rfl | hb'
      · exact Or.inl rfl
      · exact Or.inr (Or.inl (h.1 b hb'))
    · rcases List.mem_cons.mp hb with rfl | hb'
      · exact Or.inr (Or.inr (h.1 a ha'))
      · exact ih h.2 ha' hb'

theorem floorLookup_none {fs : List FunctionInfo} {x : Nat} :
    floorLookup fs x = none ↔ ∀ g ∈ fs, x < g.address := by
  induction fs with
  | nil => simp [floorLookup]
  | cons f rest ih =>
    simp only [floorLookup, List.mem_cons, forall_eq_or_imp]
    cases hr : floorLookup rest x with
    | none =>
      have := ih.mp hr
      by_cases hf : f.address ≤ x
      · simp [hf]
      · simp [hf]; exact ⟨by omega, this⟩
    | some g =>
      have hne : ¬ ∀ g ∈ rest, x < g.address := fun hall => by
        rw [ih.mpr hall] at hr; cases hr
      constructor
      · intro h
        dsimp only at h
        split at h <;> cases h
      · intro h
        exact absurd h.2 hne
    
theorem floorLookup_some {fs : List FunctionInfo} {x : Nat} {r : FunctionInfo}
    (h : floorLookup fs x = some r) :
    r ∈ fs ∧ r.address ≤ x ∧ ∀ g ∈ fs, g.address ≤ x → g.address ≤ r.address := by
  induction fs generalizing r with
  | nil => simp [floorLookup] at h
  | cons f rest ih =>
    simp only [floorLookup] at h
    cases hr : floorLookup rest x with
    | none =>
      rw [hr] at h
      have hnone := floorLookup_none.mp hr
      by_cases hf : f.address ≤ x
      · simp [hf] at h
        subst h
        refine ⟨List.mem_cons_self _ _, hf, ?_⟩
        intro g hg hgx
        rcases List.mem_cons.mp hg with rfl | hg'
        · exact le_refl _
        · have := hnone g hg'; omega
      · simp [hf] at h
    | some g0 =>
      rw [hr] at h
      obtain ⟨hmem, hle, hmax⟩ := ih hr
      by_cases hc : f.address ≤ x ∧ g0.address ≤ f.address
      · simp [hc] at h
        subst h
        refine ⟨List.mem_cons_self _ _, hc.1, ?_⟩
        intro g hg hgx
        rcases List.mem_cons.mp hg with rfl | hg'
        · exact le_refl _
        · have := hmax g hg' hgx; omega
      · dsimp only at h
        rw [if_neg hc] at h
        cases h
        refine ⟨List.mem_cons_of_mem _ hmem, hle, ?_⟩
        intro g hg hgx
        rcases List.mem_cons.mp hg with rfl | hg'
        · by_contra hlt
          exact hc ⟨hgx, by omega⟩
        · exact hmax g hg' hgx

theorem floorLookup_eq_of_unique {fs : List FunctionInfo} {x : Nat} {f : FunctionInfo}
    (hmem : f ∈ fs) (hle : f.address ≤ x)
    (hmax : ∀ g ∈ fs, g.address ≤ x → g.address ≤ f.address)
    (huniq : ∀ g ∈ fs, g.address = f.address → g = f) :
    floorLookup fs x = some f := by
  cases hr : floorLookup fs x with
  | none => have := floorLookup_none.mp hr f hmem; omega
  | some r =>
    obtain ⟨hrm, hrx, hrmax⟩ := floorLookup_some hr
    have h1 := hmax r hrm hrx
    have h2 := hrmax f hmem hle
    rw [huniq r hrm (by omega)]


theorem covers_iff (f : FunctionInfo) (x : Nat) :
    f.covers x = true ↔ f.address ≤ x ∧ x < f.address + f.size := by
  simp [FunctionInfo.covers]

theorem contains_iff (m : ModuleInMemory) (a : Nat) :
    m.contains a = true ↔ m.start ≤ a ∧ a < m.end_ := by
  simp [ModuleInMemory.contains]

theorem start_unique {fs : List FunctionInfo} (hinv : FunctionTableInvariant fs)
    {f g : FunctionInfo} (hf : f ∈ fs) (hg : g ∈ fs) (h : g.address = f.address) : g = f := by
  rcases pairwise_mem_cases hinv hg hf with h1 | h1 | h1
  · exact h1
  · omega
  · omega

theorem exactLookup_eq_of_covers {fs : List FunctionInfo} (hinv : FunctionTableInvariant fs)
    {f : FunctionInfo} (hf : f ∈ fs) {x : Nat} (hc : f.covers x = true) :
    fs.find? (fun g => g.covers x) = some f := by
  cases hr : fs.find? (fun g => g.covers x) with
  | none => exact absurd hc (List.find?_eq_none.mp hr f hf)
  | some r =>
    have hrc : r.covers x = true := @List.find?_some _ (fun g => g.covers x) r fs hr
    have hrm := List.mem_of_find?_eq_some hr
    rw [covers_iff] at hc hrc
    rcases pairwise_mem_cases hinv hrm hf with h1 | h1 | h1
    · rw [h1]
    · omega
    · omega

theorem floorLookup_eq_of_start {fs : List FunctionInfo} (hinv : FunctionTableInvariant fs)
    {f : FunctionInfo} (hf : f ∈ fs) {x : Nat} (hle : f.address ≤ x)
    (hnext : ∀ g ∈ fs, f.address < g.address → x < g.address) :
    floorLookup fs x = some f := by
  apply floorLookup_eq_of_unique hf hle
  · intro g hg hgx
    by_contra hlt
    have := hnext g hg (by omega)
    omega
  · intro g hg h
    exact start_unique hinv hf hg h

theorem FindModuleByAddress_eq_of_contains {process : ProcessData}
    (hinv : MappingsInvariant process.mappings) {m : ModuleInMemory}
    (hm : m ∈ process.mappings) {a : Nat} (hc : m.contains a = true) :
    process.FindModuleByAddress a = some m := by
  unfold ProcessData.FindModuleByAddress
  cases hr : process.mappings.find? (fun n => n.contains a) with
  | none => exact absurd hc (List.find?_eq_none.mp hr m hm)
  | some r =>
    have hrc : r.contains a = true :=
      @List.find?_some _ (fun n => n.contains a) r process.mappings hr
    have hrm := List.mem_of_find?_eq_some hr
    rw [contains_iff] at hc hrc
    rcases pairwise_mem_cases hinv.2 hrm hm with h1 | h1 | h1
    · rw [h1]
    · omega
    · omega

theorem FindModuleByAddress_some {process : ProcessData} {a : Nat} {m : ModuleInMemory}
    (h : process.FindModuleByAddress a = some m) :
    m ∈ process.mappings ∧ m.contains a = true := by
  unfold ProcessData.FindModuleByAddress at h
  exact ⟨List.mem_of_find?_eq_some h,
    @List.find?_some _ (fun n => n.contains a) m process.mappings h⟩

theorem FindFunctionByAddress_eq {process : ProcessData} {module_manager : ModuleManager}
    {a : Nat} {m : ModuleInMemory} {M : ModuleData}
    (hm : process.FindModuleByAddress a = some m)
    (hM : module_manager.GetModuleByModuleInMemoryAndAbsoluteAddress m a = some M)
    (e : Bool) :
    FindFunctionByAddress process module_manager a e =
      M.FindFunctionByOffset (SymbolAbsoluteAddressToOffset a m.start
        M.executable_segment_offset) e := by
  simp only [FindFunctionByAddress, hm, hM]

/-! ## Claims about `FindFunctionByAddress` -/

/-- C1. `FindFunctionByAddress` is unresolved when no mapping contains the address or when the
catalog has no module for the mapping and the address; otherwise it is the module's
function-table lookup, with the given `is_exact`, at the file offset
`absolute_address - mapping.start + module.executable_segment_offset` (unsigned 64-bit). -/
theorem FindFunctionByAddress_contract (process : ProcessData) (module_manager : ModuleManager)
    (absolute_address : Nat) ( is_exact : Bool) :
    ((∀ m ∈ process.mappings, m.contains absolute_address = false) →
      FindFunctionByAddress process module_manager absolute_address is_exact = none) ∧
    (∀ m, process.FindModuleByAddress absolute_address = some m →
      module_manager.GetModuleByModuleInMemoryAndAbsoluteAddress m absolute_address = none →
      FindFunctionByAddress process module_manager absolute_address is_exact = none) ∧
    (∀ m M, process.FindModuleByAddress absolute_address = some m →
      module_manager.GetModuleByModuleInMemoryAndAbsoluteAddress m absolute_address = some M →
      ∃ file_offset : Nat,
        (file_offset : Int) =
          ((absolute_address : Int) - m.start + M.executable_segment_offset) % 2 ^ 64 ∧
        FindFunctionByAddress process module_manager absolute_address is_exact =
          M.FindFunctionByOffset file_offset is_exact) := by
  refine ⟨?_, ?_, ?_⟩
  · intro hnone
    have hfind : process.FindModuleByAddress absolute_address = none := by
      unfold ProcessData.FindModuleByAddress
      rw [List.find?_eq_none]
      intro m hm
      simp [hnone m hm]
    simp only [FindFunctionByAddress, hfind]
  · intro m hm hM
    simp only [FindFunctionByAddress, hm, hM]
  · intro m M hm hM
    exact ⟨_, SymbolAbsoluteAddressToOffset_int _ _ _, FindFunctionByAddress_eq hm hM is_exact⟩

/-- C1 on the `libfoo.so` scenario: the lookup at `0x7f0000001050` is the table lookup at
file offset `0x1050`, and an address outside every mapping is unresolved. -/
theorem FindFunctionByAddress_contract_witness :
    FindFunctionByAddress libfooProcess (catalogOf (libfoo [fooBar 0x40])) 0x7f0000001050 true =
      (libfoo [fooBar 0x40]).FindFunctionByOffset 0x1050 true ∧
    FindFunctionByAddress libfooProcess (catalogOf (libfoo [fooBar 0x40])) 0x10 true = none := by
  have h := FindFunctionByAddress_contract libfooProcess (catalogOf (libfoo [fooBar 0x40]))
  refine ⟨?_, (h 0x10 true).1 (by decide)⟩
  obtain ⟨off, hoff, hres⟩ := (h 0x7f0000001050 true).2.2 libfooMapping (libfoo [fooBar 0x40])
    (by decide) (by decide)
  have : off = 0x1050 := by
    simp only [libfooMapping, libfoo] at hoff
    omega
  rw [hres, this]

theorem exactLookup_eq_of_covers_unordered {fs : List FunctionInfo}
    (hno : ExtentsDoNotOverlap fs) (huniq : StartsAreUnique fs) {f : FunctionInfo}
    (hf : f ∈ fs) {x : Nat} (hc : f.covers x = true) :
    fs.find? (fun g => g.covers x) = some f := by
  cases hr : fs.find? (fun g => g.covers x) with
  | none => exact absurd hc (List.find?_eq_none.mp hr f hf)
  | some r =>
    have hrc : r.covers x = true := @List.find?_some _ (fun g => g.covers x) r fs hr
    have hrm := List.mem_of_find?_eq_some hr
    rw [covers_iff] at hc hrc
    have h1 := hno r hrm f hf
    have h2 := hno f hf r hrm
    have h3 := huniq r hrm f hf
    by_cases he : r.address = f.address
    · rw [h3 he]
    · exfalso
      omega

theorem exactLookup_none_past_end {fs : List FunctionInfo}
    (hno : ExtentsDoNotOverlap fs) (huniq : StartsAreUnique fs) {f : FunctionInfo}
    (hf : f ∈ fs) {x : Nat} (hnext : ∀ g ∈ fs, f.address < g.address → x < g.address)
    (hend : f.address + f.size ≤ x) :
    fs.find? (fun g => g.covers x) = none := by
  rw [List.find?_eq_none]
  intro g hg hc
  rw [covers_iff] at hc
  have h1 := hno g hg f hf
  have h2 := hnext g hg
  have h3 := huniq g hg f hf
  by_cases he : g.address = f.address
  · rw [h3 he] at hc
    omega
  · omega

theorem floorLookup_eq_of_start_unordered {fs : List FunctionInfo}
    (huniq : StartsAreUnique fs) {f : FunctionInfo} (hf : f ∈ fs) {x : Nat}
    (hle : f.address ≤ x) (hnext : ∀ g ∈ fs, f.address < g.address → x < g.address) :
    floorLookup fs x = some f := by
  apply floorLookup_eq_of_unique hf hle
  · intro g hg hgx
    by_contra hlt
    have := hnext g hg (by omega)
    omega
  · intro g hg h
    exact huniq g hg f hf h

/-- C4, as stated, fails: `libearly.so` (load bias 0, executable segment at file offset
`0x1000`) is mapped at `[0x1000, 0x2000)` and its only function starts at virtual address
`0x500`, so the data-model invariants hold.  The address `0x1000` resolves to that function
with either flag, but the translated address `0x500` lies in no mapping and is unresolved. -/
theorem FindFunctionByAddress_round_trip_counterexample :
    MappingsInvariant libearlyProcess.mappings ∧
    FunctionTableInvariant libearly.functions ∧
    FindFunctionByAddress libearlyProcess (catalogOf libearly) 0x1000 true =
      some earlyFunction ∧
    FindFunctionByAddress libearlyProcess (catalogOf libearly) 0x1000 false =
      some earlyFunction ∧
    SymbolVirtualAddressToAbsoluteAddress earlyFunction.address 0x1000 libearly.load_bias
      libearly.executable_segment_offset = 0x500 ∧
    FindFunctionByAddress libearlyProcess (catalogOf libearly) 0x500 true = none ∧
    FindFunctionByAddress libearlyProcess (catalogOf libearly) 0x500 false = none := by
  decide

/-- C4, amended. Under the data-model invariants, when `absolute_address` resolves to `f`
through mapping `m` and module `M`, and the translated address
`f.address - M.load_bias - M.executable_segment_offset + m.start` lies again in `m` and is
catalogued to `M`, then the translated address resolves, with the same flag, to `f`. -/
theorem FindFunctionByAddress_round_trip (process : ProcessData)
    (module_manager : ModuleManager) (absolute_address : Nat) ( is_exact : Bool)
    (m : ModuleInMemory) (M : ModuleData) (f : FunctionInfo)
    (hmaps : MappingsInvariant process.mappings)
    (htable : FunctionTableInvariant M.functions)
    (hm : process.FindModuleByAddress absolute_address = some m)
    (hM : module_manager.GetModuleByModuleInMemoryAndAbsoluteAddress m absolute_address = some M)
    (hf : FindFunctionByAddress process module_manager absolute_address is_exact = some f)
    (hrange : f.address < 2 ^ 64)
    (hin : m.contains (SymbolVirtualAddressToAbsoluteAddress f.address m.start M.load_bias
      M.executable_segment_offset) = true)
    (hM' : module_manager.GetModuleByModuleInMemoryAndAbsoluteAddress m
      (SymbolVirtualAddressToAbsoluteAddress f.address m.start M.load_bias
        M.executable_segment_offset) = some M) :
    FindFunctionByAddress process module_manager
      (SymbolVirtualAddressToAbsoluteAddress f.address m.start M.load_bias
        M.executable_segment_offset) is_exact = some f := by
  have hm' := FindModuleByAddress_eq_of_contains hmaps (FindModuleByAddress_some hm).1 hin
  rw [FindFunctionByAddress_eq hm hM] at hf
  rw [FindFunctionByAddress_eq hm' hM']
  unfold ModuleData.FindFunctionByOffset ModuleData.FindFunctionByElfAddress at hf ⊢
  rw [roundtrip_arith _ _ _ _ hrange]
  generalize add64 M.load_bias (SymbolAbsoluteAddressToOffset absolute_address m.start
    M.executable_segment_offset) = x at hf
  cases is_exact with
  | true =>
    simp only [if_true] at hf ⊢
    have hc : f.covers x = true := @List.find?_some _ (fun g => g.covers x) f M.functions hf
    have hmem := List.mem_of_find?_eq_some hf
    rw [covers_iff] at hc
    exact exactLookup_eq_of_covers htable hmem ((covers_iff _ _).mpr ⟨le_refl _, by omega⟩)
  | false =>
    simp only [Bool.false_eq_true, if_false] at hf ⊢
    have hmem := (floorLookup_some hf).1
    exact floorLookup_eq_of_start htable hmem (le_refl _) (fun g _ h => h)

/-- C4 on the `libfoo.so` scenario: `0x7f0000001060`, inside `Foo::Bar`, resolves to it, and
so does the translated start address `0x7f0000001050`. -/
theorem FindFunctionByAddress_round_trip_witness :
    FindFunctionByAddress libfooProcess (catalogOf (libfoo [fooBar 0x40])) 0x7f0000001060 true =
      some (fooBar 0x40) ∧
    FindFunctionByAddress libfooProcess (catalogOf (libfoo [fooBar 0x40]))
      (SymbolVirtualAddressToAbsoluteAddress (fooBar 0x40).address libfooMapping.start
        (libfoo [fooBar 0x40]).load_bias (libfoo [fooBar 0x40]).executable_segment_offset) true =
      some (fooBar 0x40) :=
  ⟨by decide,
    FindFunctionByAddress_round_trip libfooProcess (catalogOf (libfoo [fooBar 0x40]))
      0x7f0000001060 true libfooMapping (libfoo [fooBar 0x40]) (fooBar 0x40)
      (by decide) (by decide) (by decide) (by decide) (by decide) (by decide) (by decide)
      (by decide)⟩


/-! ## Claims about the fallback to the address infos of the capture -/

theorem UsingModulesInMemory_eq {process : ProcessData} {module_manager : ModuleManager}
    {a : Nat} {m : ModuleInMemory} {M : ModuleData} {f : FunctionInfo}
    (hm : process.FindModuleByAddress a = some m)
    (hM : module_manager.GetModuleByModuleInMemoryAndAbsoluteAddress m a = some M)
    (hf : FindFunctionByAddress process module_manager a false = some f) :
    FindFunctionAbsoluteAddressByInstructionAbsoluteAddressUsingModulesInMemory process
      module_manager a =
      some (SymbolVirtualAddressToAbsoluteAddress f.address m.start M.load_bias
        M.executable_segment_offset) := by
  simp only [FindFunctionByAddress, hm, hM] at hf
  simp only [FindFunctionAbsoluteAddressByInstructionAbsoluteAddressUsingModulesInMemory, hm,
    hM, hf]

theorem UsingModulesInMemory_isSome (process : ProcessData) (module_manager : ModuleManager)
    (a : Nat) :
    (FindFunctionAbsoluteAddressByInstructionAbsoluteAddressUsingModulesInMemory process
      module_manager a).isSome = (FindFunctionByAddress process module_manager a false).isSome := by
  unfold FindFunctionAbsoluteAddressByInstructionAbsoluteAddressUsingModulesInMemory
    FindFunctionByAddress
  cases process.FindModuleByAddress a with
  | none => rfl
  | some m =>
    dsimp only
    cases module_manager.GetModuleByModuleInMemoryAndAbsoluteAddress m a with
    | none => rfl
    | some M =>
      dsimp only
      cases M.FindFunctionByOffset (SymbolAbsoluteAddressToOffset a m.start
        M.executable_segment_offset) false <;> rfl

theorem UsingModulesInMemory_none {process : ProcessData} {module_manager : ModuleManager}
    {a : Nat} (h : FindFunctionByAddress process module_manager a false = none) :
    FindFunctionAbsoluteAddressByInstructionAbsoluteAddressUsingModulesInMemory process
      module_manager a = none := by
  have := UsingModulesInMemory_isSome process module_manager a
  rw [h] at this
  simpa using this

theorem FindFunctionByAddress_some_through {process : ProcessData}
    {module_manager : ModuleManager} {a : Nat} {e : Bool} {f : FunctionInfo}
    (hf : FindFunctionByAddress process module_manager a e = some f) :
    ∃ m M, process.FindModuleByAddress a = some m ∧
      module_manager.GetModuleByModuleInMemoryAndAbsoluteAddress m a = some M := by
  unfold FindFunctionByAddress at hf
  cases hm : process.FindModuleByAddress a with
  | none => rw [hm] at hf; cases hf
  | some m =>
    rw [hm] at hf
    dsimp only at hf
    cases hM : module_manager.GetModuleByModuleInMemoryAndAbsoluteAddress m a with
    | none => rw [hM] at hf; cases hf
    | some M => exact ⟨m, M, rfl, hM⟩

/-- C5. Live wins: for two captures of the same process that differ only in their address
infos, when the non-exact function lookup resolves, the function name and the function start
address are the same, live-derived values in both; when the module lookup resolves, the
module path is the module's `file_path` in both. -/
theorem live_resolution_wins (GetDisplayName : FunctionInfo → String)
    (module_manager : ModuleManager) (process : ProcessData)
    (hints₁ hints₂ : Nat → Option LinuxAddressInfo)
    (instrumented : List (Nat × InstrumentedFunction)) (absolute_address : Nat) :
    (∀ f, FindFunctionByAddress process module_manager absolute_address false = some f →
      GetFunctionNameByAddress GetDisplayName module_manager
          ⟨process, hints₁, instrumented⟩ absolute_address = GetDisplayName f ∧
      GetFunctionNameByAddress GetDisplayName module_manager
          ⟨process, hints₂, instrumented⟩ absolute_address = GetDisplayName f ∧
      FindFunctionAbsoluteAddressByInstructionAbsoluteAddress module_manager
          ⟨process, hints₁, instrumented⟩ absolute_address =
        FindFunctionAbsoluteAddressByInstructionAbsoluteAddressUsingModulesInMemory process
          module_manager absolute_address ∧
      FindFunctionAbsoluteAddressByInstructionAbsoluteAddress module_manager
          ⟨process, hints₂, instrumented⟩ absolute_address =
        FindFunctionAbsoluteAddressByInstructionAbsoluteAddressUsingModulesInMemory process
          module_manager absolute_address) ∧
    (∀ M, FindModuleByAddress process module_manager absolute_address = some M →
      GetModulePathByAddress module_manager ⟨process, hints₁, instrumented⟩ absolute_address =
        M.file_path ∧
      GetModulePathByAddress module_manager ⟨process, hints₂, instrumented⟩ absolute_address =
        M.file_path) := by
  constructor
  · intro f hf
    obtain ⟨m, M, hm, hM⟩ := FindFunctionByAddress_some_through hf
    have hlive := UsingModulesInMemory_eq hm hM hf
    simp only [GetFunctionNameByAddress, hf,
      FindFunctionAbsoluteAddressByInstructionAbsoluteAddress, hlive, and_self]
  · intro M hM
    simp only [GetModulePathByAddress, hM, and_self]


/-- C5 on the `libfoo.so` scenario: with a hint at `0x7f0000001050` that names another
module and function, the answers are still those of the live module. -/
theorem live_resolution_wins_witness :
    GetFunctionNameByAddress (fun f => f.pretty_name) (catalogOf (libfoo [fooBar 0x40]))
        ⟨libfooProcess, fun _ => some ⟨0x7f0000001050, 0x10, "libother.so", "Other"⟩, []⟩
        0x7f0000001050 = "Foo::Bar" ∧
    GetModulePathByAddress (catalogOf (libfoo [fooBar 0x40]))
        ⟨libfooProcess, fun _ => some ⟨0x7f0000001050, 0x10, "libother.so", "Other"⟩, []⟩
        0x7f0000001050 = "libfoo.so" := by
  have h := live_resolution_wins (fun f => f.pretty_name) (catalogOf (libfoo [fooBar 0x40]))
    libfooProcess (fun _ => none)
    (fun _ => some ⟨0x7f0000001050, 0x10, "libother.so", "Other"⟩) [] 0x7f0000001050
  exact ⟨(h.1 (fooBar 0x40) (by decide)).2.1, (h.2 (libfoo [fooBar 0x40]) (by decide)).2⟩

/-- C6. When the non-exact `FindFunctionByAddress` resolves to `f` through mapping `m` and
module `M`, `FindFunctionAbsoluteAddressByInstructionAbsoluteAddress` is present with value
`f.address - M.load_bias - M.executable_segment_offset + m.start` (unsigned 64-bit); and the
live tier succeeds exactly when the non-exact `FindFunctionByAddress` does. -/
theorem live_tier_start_address (module_manager : ModuleManager) (capture_data : CaptureData)
    (absolute_address : Nat) :
    (∀ m M f, capture_data.process.FindModuleByAddress absolute_address = some m →
      module_manager.GetModuleByModuleInMemoryAndAbsoluteAddress m absolute_address = some M →
      FindFunctionByAddress capture_data.process module_manager absolute_address false =
        some f →
      ∃ start : Nat,
        FindFunctionAbsoluteAddressByInstructionAbsoluteAddress module_manager capture_data
          absolute_address = some start ∧
        (start : Int) =
          ((f.address : Int) - M.load_bias - M.executable_segment_offset + m.start) % 2 ^ 64) ∧
    ((FindFunctionAbsoluteAddressByInstructionAbsoluteAddressUsingModulesInMemory
        capture_data.process module_manager absolute_address).isSome = true ↔
      (FindFunctionByAddress capture_data.process module_manager absolute_address
        false).isSome = true) := by
  constructor
  · intro m M f hm hM hf
    refine ⟨_, ?_, SymbolVirtualAddressToAbsoluteAddress_int _ _ _ _⟩
    simp only [FindFunctionAbsoluteAddressByInstructionAbsoluteAddress,
      UsingModulesInMemory_eq hm hM hf]
  · rw [UsingModulesInMemory_isSome]

/-- C6 on the `libfoo.so` scenario: for `0x7f0000001090` the start address returned is
`0x7f0000001050`. -/
theorem live_tier_start_address_witness :
    FindFunctionAbsoluteAddressByInstructionAbsoluteAddress (catalogOf (libfoo [fooBar 0x40]))
      ⟨libfooProcess, fun _ => none, []⟩ 0x7f0000001090 = some 0x7f0000001050 := by
  obtain ⟨start, hres, hval⟩ := (live_tier_start_address (catalogOf (libfoo [fooBar 0x40]))
    ⟨libfooProcess, fun _ => none, []⟩ 0x7f0000001090).1 libfooMapping (libfoo [fooBar 0x40])
    (fooBar 0x40) (by decide) (by decide) (by decide)
  have : start = 0x7f0000001050 := by
    simp only [libfooMapping, libfoo, fooBar] at hval
    omega
  rw [hres, this]

/-- C7. When live resolution fails (the non-exact `FindFunctionByAddress` is unresolved: no
mapping, no catalogued module, or no function found) and the capture holds an address info
`h` for the address, `FindFunctionAbsoluteAddressByInstructionAbsoluteAddress` is present
with value `absolute_address - h.offset_in_function` modulo `2 ^ 64`. -/
theorem hint_tier_start_address (module_manager : ModuleManager) (capture_data : CaptureData)
    (absolute_address : Nat) (h : LinuxAddressInfo)
    (hlive : FindFunctionByAddress capture_data.process module_manager absolute_address
      false = none)
    (hhint : capture_data.GetAddressInfo absolute_address = some h) :
    ∃ start : Nat,
      FindFunctionAbsoluteAddressByInstructionAbsoluteAddress module_manager capture_data
        absolute_address = some start ∧
      (start : Int) = ((absolute_address : Int) - h.offset_in_function) % 2 ^ 64 := by
  refine ⟨sub64 absolute_address h.offset_in_function, ?_, ?_⟩
  · simp only [FindFunctionAbsoluteAddressByInstructionAbsoluteAddress,
      UsingModulesInMemory_none hlive,
      FindFunctionAbsoluteAddressByInstructionAbsoluteAddressUsingAddressInfo, hhint]
  · unfold sub64 kUint64Modulus
    omega

/-- C7 on a capture without mappings: with a hint of offset `0x30` for `0x5000` the start
address is `0x4fd0`, and with an offset larger than the address the subtraction wraps. -/
theorem hint_tier_start_address_witness :
    FindFunctionAbsoluteAddressByInstructionAbsoluteAddress (catalogOf (libfoo []))
      ⟨⟨[]⟩, fun _ => some ⟨0x5000, 0x30, "libbar.so", "Bar"⟩, []⟩ 0x5000 = some 0x4fd0 ∧
    FindFunctionAbsoluteAddressByInstructionAbsoluteAddress (catalogOf (libfoo []))
      ⟨⟨[]⟩, fun _ => some ⟨0x10, 0x11, "libbar.so", "Bar"⟩, []⟩ 0x10 =
        some 0xffffffffffffffff := by
  obtain ⟨s₁, h₁, v₁⟩ := hint_tier_start_address (catalogOf (libfoo []))
    ⟨⟨[]⟩, fun _ => some ⟨0x5000, 0x30, "libbar.so", "Bar"⟩, []⟩ 0x5000
    ⟨0x5000, 0x30, "libbar.so", "Bar"⟩ (by decide) rfl
  obtain ⟨s₂, h₂, v₂⟩ := hint_tier_start_address (catalogOf (libfoo []))
    ⟨⟨[]⟩, fun _ => some ⟨0x10, 0x11, "libbar.so", "Bar"⟩, []⟩ 0x10
    ⟨0x10, 0x11, "libbar.so", "Bar"⟩ (by decide) rfl
  have e₁ : s₁ = 0x4fd0 := by
    dsimp only at v₁
    omega
  have e₂ : s₂ = 0xffffffffffffffff := by
    dsimp only at v₂
    omega
  rw [h₁, h₂, e₁, e₂]
  exact ⟨rfl, rfl⟩


/-! ## Claims about the names returned -/

/-- C8, at the failing input: in the `libfoo.so` scenario with the names of `Foo::Bar`
cleared and the display name read from `pretty_name`, live resolution succeeds at
`0x7f0000001050` and `GetFunctionNameByAddress` returns the empty string, although the
address info recorded for that address carries a name. -/
theorem GetFunctionNameByAddress_empty_display_name :
    FindFunctionByAddress libfooProcess
        (catalogOf (libfoo [{ fooBar 0x40 with name := "", pretty_name := "" }]))
        0x7f0000001050 false =
      some { fooBar 0x40 with name := "", pretty_name := "" } ∧
    GetFunctionNameByAddress (fun f => f.pretty_name)
        (catalogOf (libfoo [{ fooBar 0x40 with name := "", pretty_name := "" }]))
        ⟨libfooProcess, fun _ => some ⟨0x7f0000001050, 0, "libfoo.so", "Foo::Bar"⟩, []⟩
        0x7f0000001050 = "" := by
  decide

/-- C9. When the non-exact `FindFunctionByAddress` is unresolved, `GetFunctionNameByAddress`
returns the `function_name` of the address info verbatim if the capture holds one for the
address and its name is not empty, and the sentinel `"???"` otherwise (no address info, or
one with an empty name). -/
theorem GetFunctionNameByAddress_fallback (GetDisplayName : FunctionInfo → String)
    (module_manager : ModuleManager) (capture_data : CaptureData) (absolute_address : Nat)
    (hlive : FindFunctionByAddress capture_data.process module_manager absolute_address
      false = none) :
    (∀ h, capture_data.GetAddressInfo absolute_address = some h → h.function_name ≠ "" →
      GetFunctionNameByAddress GetDisplayName module_manager capture_data absolute_address =
        h.function_name) ∧
    (capture_data.GetAddressInfo absolute_address = none →
      GetFunctionNameByAddress GetDisplayName module_manager capture_data absolute_address =
        "???") ∧
    (∀ h, capture_data.GetAddressInfo absolute_address = some h → h.function_name = "" →
      GetFunctionNameByAddress GetDisplayName module_manager capture_data absolute_address =
        "???") := by
  refine ⟨?_, ?_, ?_⟩
  · intro h hh hne
    have : h.function_name.isEmpty = false := by
      rw [← Bool.not_eq_true, String.isEmpty_iff]
      exact hne
    simp [GetFunctionNameByAddress, hlive, hh, this]
  · intro hh
    simp [GetFunctionNameByAddress, hlive, hh, kUnknownFunctionOrModuleName]
  · intro h hh he
    have : h.function_name.isEmpty = true := (String.isEmpty_iff _).mpr he
    simp [GetFunctionNameByAddress, hlive, hh, this, kUnknownFunctionOrModuleName]

/-- C9 on a capture without mappings: a recorded name is returned verbatim, a missing
address info gives the sentinel. -/
theorem GetFunctionNameByAddress_fallback_witness :
    GetFunctionNameByAddress (fun f => f.pretty_name) (catalogOf (libfoo []))
      ⟨⟨[]⟩, fun _ => some ⟨0x5000, 0x30, "libbar.so", "Bar"⟩, []⟩ 0x5000 = "Bar" ∧
    GetFunctionNameByAddress (fun f => f.pretty_name) (catalogOf (libfoo []))
      ⟨⟨[]⟩, fun _ => none, []⟩ 0x5000 = "???" :=
  ⟨(GetFunctionNameByAddress_fallback (fun f => f.pretty_name) (catalogOf (libfoo []))
      ⟨⟨[]⟩, fun _ => some ⟨0x5000, 0x30, "libbar.so", "Bar"⟩, []⟩ 0x5000 (by decide)).1
      ⟨0x5000, 0x30, "libbar.so", "Bar"⟩ rfl (by decide),
    (GetFunctionNameByAddress_fallback (fun f => f.pretty_name) (catalogOf (libfoo []))
      ⟨⟨[]⟩, fun _ => none, []⟩ 0x5000 (by decide)).2.1 rfl⟩

/-- C10. `GetModulePathByAddress` returns the module's `file_path` when `FindModuleByAddress`
resolves a module; otherwise the `module_path` of the address info if the capture holds one
for the address and its path is not empty; otherwise the sentinel `"???"`. -/
theorem GetModulePathByAddress_contract (module_manager : ModuleManager)
    (capture_data : CaptureData) (absolute_address : Nat) :
    (∀ M, FindModuleByAddress capture_data.process module_manager absolute_address = some M →
      GetModulePathByAddress module_manager capture_data absolute_address = M.file_path) ∧
    (FindModuleByAddress capture_data.process module_manager absolute_address = none →
      (∀ h, capture_data.GetAddressInfo absolute_address = some h → h.module_path ≠ "" →
        GetModulePathByAddress module_manager capture_data absolute_address = h.module_path) ∧
      (capture_data.GetAddressInfo absolute_address = none →
        GetModulePathByAddress module_manager capture_data absolute_address = "???") ∧
      (∀ h, capture_data.GetAddressInfo absolute_address = some h → h.module_path = "" →
        GetModulePathByAddress module_manager capture_data absolute_address = "???")) := by
  refine ⟨?_, ?_⟩
  · intro M hM
    simp only [GetModulePathByAddress, hM]
  · intro hlive
    refine ⟨?_, ?_, ?_⟩
    · intro h hh hne
      have : h.module_path.isEmpty = false := by
        rw [← Bool.not_eq_true, String.isEmpty_iff]
        exact hne
      simp [GetModulePathByAddress, hlive, hh, this]
    · intro hh
      simp [GetModulePathByAddress, hlive, hh, kUnknownFunctionOrModuleName]
    · intro h hh he
      have : h.module_path.isEmpty = true := (String.isEmpty_iff _).mpr he
      simp [GetModulePathByAddress, hlive, hh, this, kUnknownFunctionOrModuleName]

/-- C10 on concrete captures: the live module's path, the recorded path, and the sentinel for
an address info with an empty path. -/
theorem GetModulePathByAddress_contract_witness :
    GetModulePathByAddress (catalogOf (libfoo [fooBar 0x40]))
      ⟨libfooProcess, fun _ => some ⟨0x7f0000001050, 0, "libother.so", "Other"⟩, []⟩
      0x7f0000001050 = "libfoo.so" ∧
    GetModulePathByAddress (catalogOf (libfoo []))
      ⟨⟨[]⟩, fun _ => some ⟨0x5000, 0x30, "libbar.so", "Bar"⟩, []⟩ 0x5000 = "libbar.so" ∧
    GetModulePathByAddress (catalogOf (libfoo []))
      ⟨⟨[]⟩, fun _ => some ⟨0x5000, 0x30, "", "Bar"⟩, []⟩ 0x5000 = "???" :=
  ⟨(GetModulePathByAddress_contract (catalogOf (libfoo [fooBar 0x40]))
      ⟨libfooProcess, fun _ => some ⟨0x7f0000001050, 0, "libother.so", "Other"⟩, []⟩
      0x7f0000001050).1 (libfoo [fooBar 0x40]) (by decide),
    ((GetModulePathByAddress_contract (catalogOf (libfoo []))
      ⟨⟨[]⟩, fun _ => some ⟨0x5000, 0x30, "libbar.so", "Bar"⟩, []⟩ 0x5000).2 (by decide)).1
      ⟨0x5000, 0x30, "libbar.so", "Bar"⟩ rfl (by decide),
    ((GetModulePathByAddress_contract (catalogOf (libfoo []))
      ⟨⟨[]⟩, fun _ => some ⟨0x5000, 0x30, "", "Bar"⟩, []⟩ 0x5000).2 (by decide)).2.2
      ⟨0x5000, 0x30, "", "Bar"⟩ rfl rfl⟩


/-! ## Claims about unresolved addresses and the lookups by identity -/

theorem FindModuleByAddress_none_of_not_contains {process : ProcessData} {a : Nat}
    (h : ∀ m ∈ process.mappings, m.contains a = false) :
    process.FindModuleByAddress a = none := by
  unfold ProcessData.FindModuleByAddress
  rw [List.find?_eq_none]
  intro m hm
  simp [h m hm]

/-- C11. For an address that no mapping of the process contains and for which the capture
holds no address info, `GetModulePathByAddress` and `GetFunctionNameByAddress` return
`"???"` and `FindFunctionAbsoluteAddressByInstructionAbsoluteAddress` returns absent. -/
theorem unmapped_unhinted_address (GetDisplayName : FunctionInfo → String)
    (module_manager : ModuleManager) (capture_data : CaptureData) (absolute_address : Nat)
    (hmap : ∀ m ∈ capture_data.process.mappings, m.contains absolute_address = false)
    (hhint : capture_data.GetAddressInfo absolute_address = none) :
    GetModulePathByAddress module_manager capture_data absolute_address = "???" ∧
    GetFunctionNameByAddress GetDisplayName module_manager capture_data absolute_address =
      "???" ∧
    FindFunctionAbsoluteAddressByInstructionAbsoluteAddress module_manager capture_data
      absolute_address = none := by
  have hfind := FindModuleByAddress_none_of_not_contains hmap
  refine ⟨?_, ?_, ?_⟩
  · simp [GetModulePathByAddress, FindModuleByAddress, hfind, hhint,
      kUnknownFunctionOrModuleName]
  · simp [GetFunctionNameByAddress, FindFunctionByAddress, hfind, hhint,
      kUnknownFunctionOrModuleName]
  · simp [FindFunctionAbsoluteAddressByInstructionAbsoluteAddress,
      FindFunctionAbsoluteAddressByInstructionAbsoluteAddressUsingModulesInMemory,
      FindFunctionAbsoluteAddressByInstructionAbsoluteAddressUsingAddressInfo, hfind, hhint]

/-- C11 on the `libfoo.so` scenario: `0x10` lies in no mapping and has no address info. -/
theorem unmapped_unhinted_address_witness :
    GetModulePathByAddress (catalogOf (libfoo [fooBar 0x40]))
      ⟨libfooProcess, fun _ => none, []⟩ 0x10 = "???" ∧
    GetFunctionNameByAddress (fun f => f.pretty_name) (catalogOf (libfoo [fooBar 0x40]))
      ⟨libfooProcess, fun _ => none, []⟩ 0x10 = "???" ∧
    FindFunctionAbsoluteAddressByInstructionAbsoluteAddress (catalogOf (libfoo [fooBar 0x40]))
      ⟨libfooProcess, fun _ => none, []⟩ 0x10 = none :=
  unmapped_unhinted_address (fun f => f.pretty_name) (catalogOf (libfoo [fooBar 0x40]))
    ⟨libfooProcess, fun _ => none, []⟩ 0x10 (by decide) rfl

/-- C12. `FindFunctionByModulePathBuildIdAndOffset` is unresolved when the catalog has no
module with the identity `(module_path, build_id)`; otherwise it is the module's exact
function lookup at the virtual address `module.load_bias + offset` (unsigned 64-bit).  No
process and no mapping is an argument. -/
theorem FindFunctionByModulePathBuildIdAndOffset_contract (module_manager : ModuleManager)
    (module_path build_id : String) (offset : Nat) :
    (module_manager.GetModuleByPathAndBuildId module_path build_id = none →
      FindFunctionByModulePathBuildIdAndOffset module_manager module_path build_id offset =
        none) ∧
    (∀ M, module_manager.GetModuleByPathAndBuildId module_path build_id = some M →
      ∃ address : Nat, address = (M.load_bias + offset) % 2 ^ 64 ∧
        FindFunctionByModulePathBuildIdAndOffset module_manager module_path build_id offset =
          M.FindFunctionByElfAddress address true) := by
  constructor
  · intro h
    simp only [FindFunctionByModulePathBuildIdAndOffset, h]
  · intro M h
    exact ⟨add64 M.load_bias offset, rfl, by
      simp only [FindFunctionByModulePathBuildIdAndOffset, h]⟩

/-- C12 on the `libfoo.so` scenario: offset `0x1050` is looked up at virtual address `0x2050`,
and an unknown identity is unresolved. -/
theorem FindFunctionByModulePathBuildIdAndOffset_contract_witness :
    FindFunctionByModulePathBuildIdAndOffset (catalogOf (libfoo [fooBar 0x40])) "libfoo.so"
      "abc" 0x1050 = (libfoo [fooBar 0x40]).FindFunctionByElfAddress 0x2050 true ∧
    FindFunctionByModulePathBuildIdAndOffset (catalogOf (libfoo [fooBar 0x40])) "libfoo.so"
      "other" 0x1050 = none := by
  have h := FindFunctionByModulePathBuildIdAndOffset_contract (catalogOf (libfoo [fooBar 0x40]))
  refine ⟨?_, (h "libfoo.so" "other" 0x1050).1 (by decide)⟩
  obtain ⟨address, haddr, hres⟩ := (h "libfoo.so" "abc" 0x1050).2 (libfoo [fooBar 0x40])
    (by decide)
  have : address = 0x2050 := by
    rw [haddr]
    decide
  rw [hres, this]

/-- C13. For a catalogued module whose function table satisfies the data-model invariant and
an offset whose virtual address `load_bias + offset` lies in a gap, at or past the recorded
end of `f` and before the start of every later function,
`FindFunctionByModulePathBuildIdAndOffset` is unresolved, while the non-exact lookup at the
same offset returns the predecessor `f`. -/
theorem FindFunctionByModulePathBuildIdAndOffset_gap (module_manager : ModuleManager)
    (module_path build_id : String) (offset : Nat) (M : ModuleData) (f : FunctionInfo)
    (hM : module_manager.GetModuleByPathAndBuildId module_path build_id = some M)
    (hinv : FunctionTableInvariant M.functions) (hf : f ∈ M.functions)
    (hend : f.address + f.size ≤ (M.load_bias + offset) % 2 ^ 64)
    (hnext : ∀ g ∈ M.functions, f.address < g.address →
      (M.load_bias + offset) % 2 ^ 64 < g.address) :
    FindFunctionByModulePathBuildIdAndOffset module_manager module_path build_id offset =
      none ∧
    M.FindFunctionByOffset offset false = some f := by
  have hx : add64 M.load_bias offset = (M.load_bias + offset) % 2 ^ 64 := rfl
  constructor
  · simp only [FindFunctionByModulePathBuildIdAndOffset, hM,
      ModuleData.FindFunctionByElfAddress, if_true]
    rw [List.find?_eq_none]
    intro g hg hc
    rw [covers_iff, hx] at hc
    rcases pairwise_mem_cases hinv hg hf with h1 | h1 | h1
    · subst h1; omega
    · omega
    · have := hnext g hg h1.1
      omega
  · simp only [ModuleData.FindFunctionByOffset, ModuleData.FindFunctionByElfAddress,
      Bool.false_eq_true, if_false]
    rw [hx]
    exact floorLookup_eq_of_start hinv hf (by omega) hnext

/-- C13 on the `libfoo.so` scenario with a second function at `0x3000`: offset `0x1090` maps
to virtual address `0x2090`, in the gap after `Foo::Bar`. -/
theorem FindFunctionByModulePathBuildIdAndOffset_gap_witness :
    FindFunctionByModulePathBuildIdAndOffset (catalogOf (libfoo [fooBar 0x40, fooBaz]))
      "libfoo.so" "abc" 0x1090 = none ∧
    (libfoo [fooBar 0x40, fooBaz]).FindFunctionByOffset 0x1090 false = some (fooBar 0x40) :=
  FindFunctionByModulePathBuildIdAndOffset_gap (catalogOf (libfoo [fooBar 0x40, fooBaz]))
    "libfoo.so" "abc" 0x1090 (libfoo [fooBar 0x40, fooBaz]) (fooBar 0x40)
    (by decide) (by decide) (by decide) (by decide) (by decide)


/-! ## Claims about `FindInstrumentedFunctionIdSlow` and `FindModuleByAddress` -/

theorem scanInstrumentedFunctions_some_module (M : ModuleData) (f : FunctionInfo)
    (l : List (Nat × InstrumentedFunction)) :
    scanInstrumentedFunctions (some M) f l =
      .returned ((l.find? (fun it => decide (it.2.file_path = f.module_path) &&
        decide (it.2.file_offset = function_utils.Offset f M))).map (fun it => it.1)) := by
  induction l with
  | nil => rfl
  | cons it rest ih =>
    simp only [scanInstrumentedFunctions, List.find?_cons]
    by_cases h1 : it.2.file_path = f.module_path
    · by_cases h2 : it.2.file_offset = function_utils.Offset f M
      · simp [h1, h2]
      · simp [h1, h2, ih]
    · simp [h1, ih]

/-- C14. When the catalog contains the module of the function, `FindInstrumentedFunctionIdSlow`
ends with a result; it returns an id `k` only if the instrumented function keyed `k` has the
file path of the function's module and the function's file offset; and it returns absent
exactly when no instrumented function matches both. -/
theorem FindInstrumentedFunctionIdSlow_contract (module_manager : ModuleManager)
    (capture_data : CaptureData) (function : FunctionInfo) (M : ModuleData)
    (hM : module_manager.GetModuleByPathAndBuildId function.module_path
      function.module_build_id = some M) :
    (∃ r, FindInstrumentedFunctionIdSlow module_manager capture_data function = .returned r) ∧
    (∀ k, FindInstrumentedFunctionIdSlow module_manager capture_data function = .returned (some k) →
      ∃ target, (k, target) ∈ capture_data.instrumented_functions ∧
        target.file_path = function.module_path ∧
        target.file_offset = function_utils.Offset function M) ∧
    (FindInstrumentedFunctionIdSlow module_manager capture_data function = .returned none ↔
      ∀ it ∈ capture_data.instrumented_functions,
        ¬ (it.2.file_path = function.module_path ∧
          it.2.file_offset = function_utils.Offset function M)) := by
  have hres : FindInstrumentedFunctionIdSlow module_manager capture_data function =
      .returned ((capture_data.instrumented_functions.find? (fun it =>
        decide (it.2.file_path = function.module_path) &&
        decide (it.2.file_offset = function_utils.Offset function M))).map (fun it => it.1)) := by
    unfold FindInstrumentedFunctionIdSlow
    rw [hM]
    exact scanInstrumentedFunctions_some_module M function _
  rw [hres]
  refine ⟨⟨_, rfl⟩, ?_, ?_⟩
  · intro k hk
    cases hfind : capture_data.instrumented_functions.find? (fun it =>
        decide (it.2.file_path = function.module_path) &&
        decide (it.2.file_offset = function_utils.Offset function M)) with
    | none => rw [hfind] at hk; cases hk
    | some it =>
      rw [hfind] at hk
      have hk' : it.1 = k := by simpa using hk
      have hp := List.find?_some hfind
      have hmem := List.mem_of_find?_eq_some hfind
      simp only [Bool.and_eq_true, decide_eq_true_eq] at hp
      exact ⟨it.2, by rw [← hk']; exact hmem, hp.1, hp.2⟩
  · constructor
    · intro h it hit hmatch
      cases hfind : capture_data.instrumented_functions.find? (fun it =>
          decide (it.2.file_path = function.module_path) &&
          decide (it.2.file_offset = function_utils.Offset function M)) with
      | none =>
        have := List.find?_eq_none.mp hfind it hit
        simp [hmatch.1, hmatch.2] at this
      | some it' => rw [hfind] at h; cases h
    · intro h
      have : capture_data.instrumented_functions.find? (fun it =>
          decide (it.2.file_path = function.module_path) &&
          decide (it.2.file_offset = function_utils.Offset function M)) = none := by
        rw [List.find?_eq_none]
        intro it hit
        have := h it hit
        simp only [Bool.and_eq_true, decide_eq_true_eq]
        exact this
      rw [this]
      rfl

/-- C14 on the `libfoo.so` scenario: `Foo::Bar` has file offset `0x1050`, and of two
instrumented functions of `libfoo.so` the one at that offset, keyed 7, is found. -/
theorem FindInstrumentedFunctionIdSlow_contract_witness :
    FindInstrumentedFunctionIdSlow (catalogOf (libfoo [fooBar 0x40]))
      ⟨libfooProcess, fun _ => none, [(3, ⟨"libfoo.so", 0x2000⟩), (7, ⟨"libfoo.so", 0x1050⟩)]⟩
      (fooBar 0x40) = .returned (some 7) ∧
    ∃ target, (7, target) ∈ [(3, (⟨"libfoo.so", 0x2000⟩ : InstrumentedFunction)),
        (7, ⟨"libfoo.so", 0x1050⟩)] ∧
      target.file_path = "libfoo.so" ∧ target.file_offset = 0x1050 :=
  ⟨by decide,
    (FindInstrumentedFunctionIdSlow_contract (catalogOf (libfoo [fooBar 0x40]))
      ⟨libfooProcess, fun _ => none, [(3, ⟨"libfoo.so", 0x2000⟩), (7, ⟨"libfoo.so", 0x1050⟩)]⟩
      (fooBar 0x40) (libfoo [fooBar 0x40]) (by decide)).2.1 7 (by decide)⟩

/-- C15, at the failing input: the catalog knows `libfoo.so` only under build id `abc`, the
function record names `libfoo.so` with build id `stale`, and an instrumented function has the
file path `libfoo.so`.  The catalog lookup gives no module, the file paths are equal, and the
run ends in the dereference of the null module pointer instead of a result. -/
theorem FindInstrumentedFunctionIdSlow_null_module :
    (catalogOf (libfoo [fooBar 0x40])).GetModuleByPathAndBuildId "libfoo.so" "stale" = none ∧
    FindInstrumentedFunctionIdSlow (catalogOf (libfoo [fooBar 0x40]))
      ⟨libfooProcess, fun _ => none, [(7, ⟨"libfoo.so", 0x1050⟩)]⟩
      { fooBar 0x40 with module_build_id := "stale" } =
      .nullModuleDereference := by
  decide

/-- C16. `FindModuleByAddress` is unresolved when no mapping contains the address and is
otherwise what the catalog returns for the mapping and the address;
`FindModuleBuildIdByAddress` is present, with the module's `build_id`, exactly when
`FindModuleByAddress` resolves, and absent otherwise. -/
theorem FindModuleByAddress_contract (process : ProcessData) (module_manager : ModuleManager)
    (absolute_address : Nat) :
    ((∀ m ∈ process.mappings, m.contains absolute_address = false) →
      FindModuleByAddress process module_manager absolute_address = none) ∧
    (∀ m, process.FindModuleByAddress absolute_address = some m →
      FindModuleByAddress process module_manager absolute_address =
        module_manager.GetModuleByModuleInMemoryAndAbsoluteAddress m absolute_address) ∧
    (∀ M, FindModuleByAddress process module_manager absolute_address = some M →
      FindModuleBuildIdByAddress process module_manager absolute_address =
        some M.build_id) ∧
    (FindModuleByAddress process module_manager absolute_address = none →
      FindModuleBuildIdByAddress process module_manager absolute_address = none) := by
  refine ⟨?_, ?_, ?_, ?_⟩
  · intro h
    simp only [FindModuleByAddress, FindModuleByAddress_none_of_not_contains h]
  · intro m hm
    simp only [FindModuleByAddress, hm]
  · intro M hM
    simp only [FindModuleBuildIdByAddress, hM]
  · intro h
    simp only [FindModuleBuildIdByAddress, h]

/-- C16 on the `libfoo.so` scenario: the build id at `0x7f0000001050` is `abc`, and `0x10`,
which no mapping contains, has neither module nor build id. -/
theorem FindModuleByAddress_contract_witness :
    FindModuleBuildIdByAddress libfooProcess (catalogOf (libfoo [fooBar 0x40]))
      0x7f0000001050 = some "abc" ∧
    FindModuleByAddress libfooProcess (catalogOf (libfoo [fooBar 0x40])) 0x10 = none ∧
    FindModuleBuildIdByAddress libfooProcess (catalogOf (libfoo [fooBar 0x40])) 0x10 = none :=
  ⟨(FindModuleByAddress_contract libfooProcess (catalogOf (libfoo [fooBar 0x40]))
      0x7f0000001050).2.2.1 (libfoo [fooBar 0x40]) (by decide),
    (FindModuleByAddress_contract libfooProcess (catalogOf (libfoo [fooBar 0x40])) 0x10).1
      (by decide),
    (FindModuleByAddress_contract libfooProcess (catalogOf (libfoo [fooBar 0x40]))
      0x10).2.2.2 (by decide)⟩


/-! ## Implicit properties of the lookups -/

/-- C17. When the live tier resolves `absolute_address` through mapping `m` and module `M`,
the address is at or after `m.start`, and the found function's virtual
address is at least `M.load_bias + M.executable_segment_offset - m.start`, the returned
function start address is at most `absolute_address`.  That
`absolute_address - m.start + M.executable_segment_offset + M.load_bias` fits in 64 bits is
not needed: a wrap there only lowers the address that is looked up. -/
theorem live_tier_start_le_address (process : ProcessData) (module_manager : ModuleManager)
    (absolute_address : Nat) (m : ModuleInMemory) (M : ModuleData) (f : FunctionInfo)
    (start : Nat)
    (hm : process.FindModuleByAddress absolute_address = some m)
    (hM : module_manager.GetModuleByModuleInMemoryAndAbsoluteAddress m absolute_address = some M)
    (hf : FindFunctionByAddress process module_manager absolute_address false = some f)
    (hres : FindFunctionAbsoluteAddressByInstructionAbsoluteAddressUsingModulesInMemory process
      module_manager absolute_address = some start)
    (hbase : m.start ≤ absolute_address)
    (hlow : M.load_bias + M.executable_segment_offset ≤ f.address + m.start) :
    start ≤ absolute_address := by
  rw [UsingModulesInMemory_eq hm hM hf] at hres
  rw [FindFunctionByAddress_eq hm hM] at hf
  simp only [ModuleData.FindFunctionByOffset, ModuleData.FindFunctionByElfAddress,
    Bool.false_eq_true, if_false] at hf
  have hle := (floorLookup_some hf).2.1
  have hstart : start = SymbolVirtualAddressToAbsoluteAddress f.address m.start M.load_bias
      M.executable_segment_offset := by
    injection hres with h
    exact h.symm
  rw [hstart]
  unfold SymbolAbsoluteAddressToOffset add64 sub64 kUint64Modulus at hle
  unfold SymbolVirtualAddressToAbsoluteAddress add64 sub64 kUint64Modulus
  omega

/-- C17 on the `libfoo.so` scenario: for `0x7f0000001090` the start `0x7f0000001050` is
below the address. -/
theorem live_tier_start_le_address_witness :
    FindFunctionAbsoluteAddressByInstructionAbsoluteAddressUsingModulesInMemory libfooProcess
      (catalogOf (libfoo [fooBar 0x40])) 0x7f0000001090 = some 0x7f0000001050 ∧
    0x7f0000001050 ≤ 0x7f0000001090 :=
  ⟨by decide,
    live_tier_start_le_address libfooProcess (catalogOf (libfoo [fooBar 0x40])) 0x7f0000001090
      libfooMapping (libfoo [fooBar 0x40]) (fooBar 0x40) 0x7f0000001050
      (by decide) (by decide) (by decide) (by decide) (by decide) (by decide)⟩

/-- C18. For a module `M` found by `FindModuleByAddress` for the address through mapping `m`,
and provided the catalog's lookup by `(M.file_path, M.build_id)` returns `M`, the exact
`FindFunctionByAddress` and `FindFunctionByModulePathBuildIdAndOffset` at the offset
`absolute_address - m.start + M.executable_segment_offset` (unsigned 64-bit) return the
same result. -/
theorem exact_lookups_agree (process : ProcessData) (module_manager : ModuleManager)
    (absolute_address : Nat) (m : ModuleInMemory) (M : ModuleData) (offset : Nat)
    (hm : process.FindModuleByAddress absolute_address = some m)
    (hfind : FindModuleByAddress process module_manager absolute_address = some M)
    (hid : module_manager.GetModuleByPathAndBuildId M.file_path M.build_id = some M)
    (hoff : (offset : Int) =
      ((absolute_address : Int) - m.start + M.executable_segment_offset) % 2 ^ 64) :
    FindFunctionByAddress process module_manager absolute_address true =
      FindFunctionByModulePathBuildIdAndOffset module_manager M.file_path M.build_id offset := by
  have hM : module_manager.GetModuleByModuleInMemoryAndAbsoluteAddress m absolute_address =
      some M := by
    simpa only [FindModuleByAddress, hm] using hfind
  have hoff' : SymbolAbsoluteAddressToOffset absolute_address m.start
      M.executable_segment_offset = offset := by
    have := SymbolAbsoluteAddressToOffset_int absolute_address m.start
      M.executable_segment_offset
    omega
  rw [FindFunctionByAddress_eq hm hM, hoff']
  simp only [FindFunctionByModulePathBuildIdAndOffset, hid, ModuleData.FindFunctionByOffset]

/-- C18 on the `libfoo.so` scenario: the address `0x7f0000001050` and the offset `0x1050`
give the same exact result. -/
theorem exact_lookups_agree_witness :
    FindFunctionByAddress libfooProcess (catalogOf (libfoo [fooBar 0x40])) 0x7f0000001050 true =
      FindFunctionByModulePathBuildIdAndOffset (catalogOf (libfoo [fooBar 0x40])) "libfoo.so"
        "abc" 0x1050 :=
  exact_lookups_agree libfooProcess (catalogOf (libfoo [fooBar 0x40])) 0x7f0000001050
    libfooMapping (libfoo [fooBar 0x40]) 0x1050 (by decide) (by decide) (by decide) (by decide)

/-- C19. The tiers are chosen per operation.  Whenever a module is mapped and catalogued at an
address, the non-exact function lookup finds no function there, and the capture holds an
address info with a non-empty function name for the address, `GetModulePathByAddress`
returns the live module's `file_path`, `GetFunctionNameByAddress` the function name of the
address info, and `FindFunctionAbsoluteAddressByInstructionAbsoluteAddress` the address
minus the offset of the address info (unsigned 64-bit).  Such inputs exist: for `libfoo.so`
at `0x7f0000000010`, before its only function, with an address info naming `libother.so`,
`Other` and offset 8, the three answers are `libfoo.so`, `Other` and `0x7f0000000008`, so the
path is the live one although the address info names another, and the name and the start
address are those of the address info, not the sentinel and not the queried address. -/
theorem answers_can_mix_tiers :
    (∀ (GetDisplayName : FunctionInfo → String) (module_manager : ModuleManager)
      (capture_data : CaptureData) (absolute_address : Nat) (M : ModuleData)
      (h : LinuxAddressInfo),
      FindModuleByAddress capture_data.process module_manager absolute_address = some M →
      FindFunctionByAddress capture_data.process module_manager absolute_address false =
        none →
      capture_data.GetAddressInfo absolute_address = some h →
      h.function_name ≠ "" →
      GetModulePathByAddress module_manager capture_data absolute_address = M.file_path ∧
      GetFunctionNameByAddress GetDisplayName module_manager capture_data absolute_address =
        h.function_name ∧
      ∃ start : Nat,
        FindFunctionAbsoluteAddressByInstructionAbsoluteAddress module_manager capture_data
          absolute_address = some start ∧
        (start : Int) = ((absolute_address : Int) - h.offset_in_function) % 2 ^ 64) ∧
    (FindModuleByAddress libfooProcess (catalogOf (libfoo [fooBar 0x40])) 0x7f0000000010 =
        some (libfoo [fooBar 0x40]) ∧
      FindFunctionByAddress libfooProcess (catalogOf (libfoo [fooBar 0x40])) 0x7f0000000010
        false = none ∧
      GetModulePathByAddress (catalogOf (libfoo [fooBar 0x40]))
        ⟨libfooProcess, fun _ => some ⟨0x7f0000000010, 0x8, "libother.so", "Other"⟩, []⟩
        0x7f0000000010 = "libfoo.so" ∧
      GetFunctionNameByAddress (fun f => f.pretty_name) (catalogOf (libfoo [fooBar 0x40]))
        ⟨libfooProcess, fun _ => some ⟨0x7f0000000010, 0x8, "libother.so", "Other"⟩, []⟩
        0x7f0000000010 = "Other" ∧
      FindFunctionAbsoluteAddressByInstructionAbsoluteAddress
        (catalogOf (libfoo [fooBar 0x40]))
        ⟨libfooProcess, fun _ => some ⟨0x7f0000000010, 0x8, "libother.so", "Other"⟩, []⟩
        0x7f0000000010 = some 0x7f0000000008) := by
  constructor
  · intro GetDisplayName module_manager capture_data absolute_address M h hM hlive hhint hne
    refine ⟨?_, ?_, ?_⟩
    · simp only [GetModulePathByAddress, hM]
    · have hname : h.function_name.isEmpty = false := by
        rw [← Bool.not_eq_true, String.isEmpty_iff]
        exact hne
      simp [GetFunctionNameByAddress, hlive, hhint, hname]
    · refine ⟨sub64 absolute_address h.offset_in_function, ?_, ?_⟩
      · simp only [FindFunctionAbsoluteAddressByInstructionAbsoluteAddress,
          UsingModulesInMemory_none hlive,
          FindFunctionAbsoluteAddressByInstructionAbsoluteAddressUsingAddressInfo, hhint]
      · unfold sub64 kUint64Modulus
        omega
  · decide

end orbit_client_data

namespace orbit_windows_tracing

/-! ## Claims about `GraphicsEtwProvider::Provider::OnEvent` -/

theorem deliver_cons (counter_modulus : Nat) (provider : Provider) (record : EVENT_RECORD)
    (events : List EVENT_RECORD) :
    provider.deliver counter_modulus (record :: events) =
      (provider.OnEvent counter_modulus record).deliver counter_modulus events := rfl

theorem deliver_state (counter_modulus : Nat) (hpos : 0 < counter_modulus)
    (events : List EVENT_RECORD) :
    ∀ provider : Provider, provider.num_events_received_ < counter_modulus →
      provider.num_events_processed_ < counter_modulus →
      (provider.deliver counter_modulus events).target_pid_ = provider.target_pid_ ∧
      (provider.deliver counter_modulus events).num_events_received_ =
        (provider.num_events_received_ + events.length) % counter_modulus ∧
      (provider.deliver counter_modulus events).num_events_processed_ =
        (provider.num_events_processed_ + (provider.ownEvents events).length) %
          counter_modulus ∧
      (provider.deliver counter_modulus events).callback_calls =
        provider.callback_calls ++ provider.ownEvents events := by
  induction events with
  | nil =>
    intro provider hr hp
    simp [Provider.deliver, Provider.ownEvents, Nat.mod_eq_of_lt hr, Nat.mod_eq_of_lt hp]
  | cons record rest ih =>
    intro provider hr hp
    rw [deliver_cons]
    by_cases hpid : record.ProcessId = provider.target_pid_
    · have hstep : provider.OnEvent counter_modulus record =
          { provider with
            num_events_received_ := (provider.num_events_received_ + 1) % counter_modulus
            num_events_processed_ := (provider.num_events_processed_ + 1) % counter_modulus
            callback_calls := provider.callback_calls ++ [record] } := by
        simp [Provider.OnEvent, hpid]
      obtain ⟨h1, h2, h3, h4⟩ := ih (provider.OnEvent counter_modulus record)
        (by rw [hstep]; exact Nat.mod_lt _ hpos) (by rw [hstep]; exact Nat.mod_lt _ hpos)
      rw [h1, h2, h3, h4, hstep]
      simp only [Provider.ownEvents, List.filter_cons, hpid, decide_True, if_true,
        List.length_cons, Nat.mod_add_mod, List.append_assoc, List.singleton_append]
      refine ⟨trivial, ?_, ?_, trivial⟩
      · congr 1; omega
      · congr 1; omega
    · have hstep : provider.OnEvent counter_modulus record =
          { provider with
            num_events_received_ := (provider.num_events_received_ + 1) % counter_modulus } := by
        simp [Provider.OnEvent, hpid]
      obtain ⟨h1, h2, h3, h4⟩ := ih (provider.OnEvent counter_modulus record)
        (by rw [hstep]; exact Nat.mod_lt _ hpos) (by rw [hstep]; exact hp)
      rw [h1, h2, h3, h4, hstep]
      simp only [Provider.ownEvents, List.filter_cons, hpid, decide_False, Bool.false_eq_true,
        if_false, List.length_cons, Nat.mod_add_mod]
      refine ⟨trivial, ?_, trivial, trivial⟩
      congr 1; omega

/-- C20. Starting from zeroed counters, and with fewer events than the counters can count,
after any sequence of events delivered to `OnEvent`: `num_events_received_` is the number
of events delivered, `num_events_processed_` is the number of delivered events whose
`ProcessId` is `target_pid_`, the callback has been called once for each such event, in
order, and for no other event, and `num_events_processed_ ≤ num_events_received_`. -/
theorem OnEvent_counters (counter_modulus : Nat) (provider : Provider)
    (events : List EVENT_RECORD)
    (hreceived : provider.num_events_received_ = 0)
    (hprocessed : provider.num_events_processed_ = 0)
    (hcalls : provider.callback_calls = [])
    (hfits : events.length < counter_modulus) :
    (provider.deliver counter_modulus events).num_events_received_ = events.length ∧
    (provider.deliver counter_modulus events).num_events_processed_ =
      (events.filter (fun record => decide (record.ProcessId = provider.target_pid_))).length ∧
    (provider.deliver counter_modulus events).callback_calls =
      events.filter (fun record => decide (record.ProcessId = provider.target_pid_)) ∧
    (provider.deliver counter_modulus events).num_events_processed_ ≤
      (provider.deliver counter_modulus events).num_events_received_ := by
  have hpos : 0 < counter_modulus := by omega
  obtain ⟨_, h2, h3, h4⟩ := deliver_state counter_modulus hpos events provider
    (by omega) (by omega)
  have hle : (provider.ownEvents events).length ≤ events.length := List.length_filter_le _ _
  rw [hreceived, Nat.zero_add, Nat.mod_eq_of_lt hfits] at h2
  rw [hprocessed, Nat.zero_add, Nat.mod_eq_of_lt (by omega)] at h3
  rw [hcalls, List.nil_append] at h4
  rw [h2, h3, h4]
  exact ⟨rfl, rfl, rfl, hle⟩

/-- C20 on three events, two of them of the target process 42, with 32-bit counters. -/
theorem OnEvent_counters_witness :
    (Provider.deliver (2 ^ 32) ⟨42, 0, 0, []⟩ [⟨42, 1⟩, ⟨7, 2⟩, ⟨42, 3⟩]).num_events_received_ =
      3 ∧
    (Provider.deliver (2 ^ 32) ⟨42, 0, 0, []⟩ [⟨42, 1⟩, ⟨7, 2⟩, ⟨42, 3⟩]).num_events_processed_ =
      2 ∧
    (Provider.deliver (2 ^ 32) ⟨42, 0, 0, []⟩ [⟨42, 1⟩, ⟨7, 2⟩, ⟨42, 3⟩]).callback_calls =
      [⟨42, 1⟩, ⟨42, 3⟩] := by
  obtain ⟨h1, h2, h3, _⟩ := OnEvent_counters (2 ^ 32) ⟨42, 0, 0, []⟩
    [⟨42, 1⟩, ⟨7, 2⟩, ⟨42, 3⟩] rfl rfl rfl (by decide)
  exact ⟨h1, h2.trans (by decide), h3.trans (by decide)⟩

end orbit_windows_tracing

namespace orbit_windows_tracing

/-! ## Claims about the constructor of `GraphicsEtwProvider` -/

theorem EnableProvider_of_not_contains (self : GraphicsEtwProvider) (name : String)
    (guid : ProviderGuid) (callback : EventCallback) (h : self.contains name = false) :
    self.EnableProvider name guid callback =
      some { self with
        name_to_provider_ :=
          self.name_to_provider_ ++ [(name, ⟨name, guid, self.target_pid_, callback⟩)] } := by
  simp [GraphicsEtwProvider.EnableProvider, GraphicsEtwProvider.assign, h]

theorem EnableProvider_isSome_iff (self : GraphicsEtwProvider) (name : String)
    (guid : ProviderGuid) (callback : EventCallback) :
    (self.EnableProvider name guid callback).isSome = true ↔ self.contains name = false := by
  unfold GraphicsEtwProvider.EnableProvider
  cases self.contains name <;> simp

/-- C21. The assertion of `EnableProvider` holds at every call the constructor makes: the
nine names it registers are pairwise distinct, so, starting from the empty map, no call ends
in the failure of `ORBIT_CHECK`, and the constructed object holds exactly nine providers,
one under each of the nine names. -/
theorem constructor_registers_nine_providers (pid : Nat) :
    kRegisteredNames.Nodup ∧ kRegisteredNames.length = 9 ∧
    ∃ constructed, GraphicsEtwProvider.construct pid = some constructed ∧
      constructed.name_to_provider_.map (fun entry => entry.1) = kRegisteredNames ∧
      constructed.name_to_provider_.length = 9 ∧
      ∀ entry ∈ constructed.name_to_provider_,
        entry.2.name_ = entry.1 ∧ entry.2.target_pid_ = pid := by
  refine ⟨by decide, rfl, ?_⟩
  refine ⟨⟨pid,
    [("Dxgi", ⟨"Dxgi", .Microsoft_Windows_DXGI, pid, .OnDXGIEvent⟩),
     ("D3d9", ⟨"D3d9", .Microsoft_Windows_D3D9, pid, .OnD3d9Event⟩),
     ("DwmCore", ⟨"DwmCore", .Microsoft_Windows_Dwm_Core, pid, .OnDwmCoreEvent⟩),
     ("DwmCoreWin7", ⟨"DwmCoreWin7", .Microsoft_Windows_Dwm_Core, pid, .OnDwmCoreWin7Event⟩),
     ("DxgKrnl", ⟨"DxgKrnl", .Microsoft_Windows_DxgKrnl, pid, .OnDxgKrnlEvent⟩),
     ("DxgKrnlWin7Pres", ⟨"DxgKrnlWin7Pres", .Microsoft_Windows_DxgKrnl_Win7_PRESENTHISTORY, pid,
       .OnDxgKrnlWin7PresEvent⟩),
     ("NtProcess", ⟨"NtProcess", .NT_Process, pid, .OnNtProcessEvent⟩),
     ("WindowsEventMetadata", ⟨"WindowsEventMetadata", .Microsoft_Windows_EventMetadata, pid,
       .OnWindowsEventMetadata⟩),
     ("Win32K", ⟨"Win32K", .Microsoft_Windows_Win32k, pid, .OnWin32KEvent⟩)]⟩, ?_, rfl, rfl, ?_⟩
  · unfold GraphicsEtwProvider.construct
    simp only [Option.bind_eq_bind]
    rw [EnableProvider_of_not_contains _ _ _ _ (by rfl), Option.some_bind]
    rw [EnableProvider_of_not_contains _ _ _ _ (by rfl), Option.some_bind]
    rw [EnableProvider_of_not_contains _ _ _ _ (by rfl), Option.some_bind]
    rw [EnableProvider_of_not_contains _ _ _ _ (by rfl), Option.some_bind]
    rw [EnableProvider_of_not_contains _ _ _ _ (by rfl), Option.some_bind]
    rw [EnableProvider_of_not_contains _ _ _ _ (by rfl), Option.some_bind]
    rw [EnableProvider_of_not_contains _ _ _ _ (by rfl), Option.some_bind]
    rw [EnableProvider_of_not_contains _ _ _ _ (by rfl), Option.some_bind]
    rw [EnableProvider_of_not_contains _ _ _ _ (by rfl)]
    rfl
  · intro entry hentry
    simp only [List.mem_cons, List.mem_singleton, List.not_mem_nil, or_false] at hentry
    rcases hentry with h | h | h | h | h | h | h | h | h <;> subst h <;> exact ⟨rfl, rfl⟩

end orbit_windows_tracing
